/-
Verification of the FusionNet reader (Levstyle/SQuAD_models).

Shallow embedding of `drqa/reader/fusionnet_reader.py`,
`drqa/reader/config.py` and
`drqa/module/similarity_functions/cosine.py`.

Tensors are modelled per batch item: a sequence is a `List` of token
vectors, a vector is a `List ℚ`.  The transcendental scalar functions of
the numeric library (exp, log, sigmoid, tanh, sqrt) and the externally
provided layers (the `cove` MTLSTM encoder, the recurrent encoders
`layers.StackedBRNN` built on nn.LSTM, the dropout noise realisation,
and the nn.GRU cell) are parameters of the model: the properties proved
below hold for every choice of them (with positivity of `exp` assumed
where stated).  The layer helpers of `drqa/reader/layers.py`
(`SymBilinearAttnMatch`, `BilinearSeqAttn`, `LinearSeqAttn`,
`weighted_avg`) are not part of the sources available here, so their
bodies are modelled from the specification, as their doc comments note.
-/
import Mathlib

namespace FusionNet

/-- A token vector. -/
abbrev Vec := List ℚ

/-- Dot product of two vectors (truncating to the shorter one). -/
def dot (a b : Vec) : ℚ := (List.zipWith (· * ·) a b).sum

/-- Matrix–vector product: the matrix is a list of rows, the result has
one entry per row. -/
def matVec (W : List Vec) (v : Vec) : Vec := W.map (fun row => dot row v)

/-- Elementwise ReLU. -/
def reluVec (v : Vec) : Vec := v.map (fun x => max x 0)

/-- Elementwise addition, padding the shorter vector with zeros. -/
def vadd : Vec → Vec → Vec
  | [], ys => ys
  | xs, [] => xs
  | x :: xs, y :: ys => (x + y) :: vadd xs ys

/-- Scalar multiple of a vector. -/
def smul (c : ℚ) (v : Vec) : Vec := v.map (fun x => c * x)

/-- Weighted sum of a sequence of vectors: `Σ_i w_i · xs_i`.
Modelled from the spec: `layers.weighted_avg(x, weights)` (not in the
available sources) computes the weights-weighted average
`weights.unsqueeze(1).bmm(x).squeeze(1)`, i.e. the weighted sum of the
rows of `x`. -/
def weightedSum (w : List ℚ) (xs : List Vec) : Vec :=
  (List.zipWith smul w xs).foldr vadd []

/-- Per-token concatenation of two sequences of vectors (dim=-1 `cat`). -/
def zipCat (a b : List Vec) : List Vec := List.zipWith (· ++ ·) a b

/-- Per-token concatenation of several sequences of vectors
(`torch.cat(_, dim=2)` on a list of aligned sequences). -/
def concatSeqs : List (List Vec) → List Vec
  | [] => []
  | [s] => s
  | s :: rest => zipCat s (concatSeqs rest)

/-- Modelled from the spec: masked softmax over one row of scores.
Padding positions (mask `true`) contribute zero weight regardless of
their raw score; the remaining scores are exponentiated by `e` and
normalised to sum to one.  `e` abstracts the numeric library's `exp`. -/
def maskedSoftmax (e : ℚ → ℚ) (scores : List ℚ) (mask : List Bool) : List ℚ :=
  let exps := List.zipWith (fun s m => if m then 0 else e s) scores mask
  exps.map (fun x => x / exps.sum)

/- Helper lemmas about `maskedSoftmax`. -/

theorem maskedExps_nonneg (e : ℚ → ℚ) (hpos : ∀ x, 0 < e x)
    (scores : List ℚ) (mask : List Bool) :
    ∀ y ∈ List.zipWith (fun s m => if m then 0 else e s) scores mask, 0 ≤ y := by
  induction scores generalizing mask with
  | nil => intro y hy; simp at hy
  | cons s ss ih =>
    intro y hy
    cases mask with
    | nil => simp at hy
    | cons m ms =>
      simp only [List.zipWith, List.mem_cons] at hy
      rcases hy with h | h
      · subst h
        by_cases hm : m = true
        · simp [hm]
        · simp [hm]; exact le_of_lt (hpos s)
      · exact ih ms y h

theorem maskedExps_sum_pos (e : ℚ → ℚ) (hpos : ∀ x, 0 < e x)
    (scores : List ℚ) (mask : List Bool)
    (hlen : scores.length = mask.length) (hvalid : false ∈ mask) :
    0 < (List.zipWith (fun s m => if m then 0 else e s) scores mask).sum := by
  induction scores generalizing mask with
  | nil =>
    cases mask with
    | nil => simp at hvalid
    | cons m ms => simp at hlen
  | cons s ss ih =>
    cases mask with
    | nil => simp at hvalid
    | cons m ms =>
      simp only [List.zipWith, List.sum_cons]
      have hrest_nonneg : 0 ≤ (List.zipWith (fun s m => if m then 0 else e s) ss ms).sum := by
        apply List.sum_nonneg
        exact maskedExps_nonneg e hpos ss ms
      cases m with
      | false =>
        have hs : 0 < e s := hpos s
        simp only [Bool.false_eq_true, if_false]
        linarith
      | true =>
        have hvalid' : false ∈ ms := by
          simp only [List.mem_cons] at hvalid
          rcases hvalid with h | h
          · exact absurd h.symm (by simp)
          · exact h
        have hlen' : ss.length = ms.length := by
          simpa using hlen
        have hrec := ih ms hlen' hvalid'
        simpa using hrec

theorem sum_map_div (l : List ℚ) (c : ℚ) :
    (l.map (fun x => x / c)).sum = l.sum / c := by
  induction l with
  | nil => simp
  | cons a t ih => simp [List.sum_cons, ih, add_div]

theorem maskedSoftmax_sum (e : ℚ → ℚ) (hpos : ∀ x, 0 < e x)
    (scores : List ℚ) (mask : List Bool)
    (hlen : scores.length = mask.length) (hvalid : false ∈ mask) :
    (maskedSoftmax e scores mask).sum = 1 := by
  unfold maskedSoftmax
  have hZ : 0 < (List.zipWith (fun s m => if m then 0 else e s) scores mask).sum :=
    maskedExps_sum_pos e hpos scores mask hlen hvalid
  rw [sum_map_div, div_self (ne_of_gt hZ)]

theorem maskedExps_pad (e : ℚ → ℚ) (scores : List ℚ) (mask : List Bool)
    (i : Nat) (hi : i < mask.length)
    (hm : mask.get ⟨i, hi⟩ = true) :
    (List.zipWith (fun s m => if m then 0 else e s) scores mask)[i]? =
      (scores[i]?.map (fun _ => (0 : ℚ))) := by
  induction scores generalizing mask i with
  | nil => simp
  | cons s ss ih =>
    cases mask with
    | nil => simp at hi
    | cons m ms =>
      cases i with
      | zero =>
        simp only [List.get] at hm
        subst hm
        simp
      | succ n =>
        have hi' : n < ms.length := by simpa using hi
        have hm' : ms.get ⟨n, hi'⟩ = true := hm
        have hrec := ih ms n hi' hm'
        simpa using hrec

theorem maskedSoftmax_pad_zero (e : ℚ → ℚ) (scores : List ℚ) (mask : List Bool)
    (i : Nat) (hi : i < mask.length) (hilen : i < scores.length)
    (hm : mask.get ⟨i, hi⟩ = true) :
    (maskedSoftmax e scores mask).getD i 0 = 0 := by
  unfold maskedSoftmax
  rw [List.getD_eq_getElem?_getD, List.getElem?_map,
    maskedExps_pad e scores mask i hi hm]
  rw [List.getElem?_eq_getElem hilen]
  simp

/-
The attention layers.  `layers.SymBilinearAttnMatch` is not among the
available sources; it is modelled from the spec (§4.2), corroborated by
the commented-out equivalent in `fusionnet_reader.py` (lines 100–108),
which scores with `SymmetricBilinearSimilarity(history_size,
attention_size, F.relu)`:
`score(a, b) = relu(W·a) · relu(W·b)`, masked softmax over the second
sequence, weighted sum over the value sequence.
-/

/-- Symmetric-bilinear raw similarity scores of one query row `a`
against every key `b` of `B`: `relu(W·a) · relu(W·b)`. -/
def symScores (W : List Vec) (a : Vec) (B : List Vec) : List ℚ :=
  B.map (fun b => dot (reluVec (matVec W a)) (reluVec (matVec W b)))

/-- One row of the attention weight matrix: masked softmax of the raw
similarity scores over the key positions, zeroing padding ones. -/
def attnWeightsRow (e : ℚ → ℚ) (W : List Vec) (a : Vec) (B : List Vec)
    (mask : List Bool) : List ℚ :=
  maskedSoftmax e (symScores W a B) mask

/-- The full attention weight matrix `[len_A, len_B]`. -/
def attnMatrix (e : ℚ → ℚ) (W : List Vec) (A B : List Vec)
    (mask : List Bool) : List (List ℚ) :=
  A.map (fun a => attnWeightsRow e W a B mask)

/-- Modelled from the spec: `layers.SymBilinearAttnMatch.forward`
(§4.2) — attention-weighted combination of the value sequence, weights
from the symmetric bilinear scores between `A` and `B` masked by `B`'s
padding mask. -/
def symBilinearAttnMatch (e : ℚ → ℚ) (W : List Vec) (A B : List Vec)
    (mask : List Bool) (values : List Vec) : List Vec :=
  (attnMatrix e W A B mask).map (fun row => weightedSum row values)

/-- Modelled from the spec: `layers.LinearSeqAttn` (§4.5) — a single
linear scoring function produces per-position weights normalised by a
padding-masked softmax across the sequence. -/
def linearSeqAttn (e : ℚ → ℚ) (w : Vec) (X : List Vec)
    (mask : List Bool) : List ℚ :=
  maskedSoftmax e (X.map (fun x => dot w x)) mask

/-- Modelled from the spec: `layers.BilinearSeqAttn` with
`log_normalize=False` (§4.6) — bilinear score `xᵢ · (W·y)` of each
sequence position against the single vector `y`, softmax-normalised
over the sequence masking its padding, returning plain probabilities. -/
def bilinearSeqAttn (e : ℚ → ℚ) (W : List Vec) (X : List Vec) (y : Vec)
    (mask : List Bool) : List ℚ :=
  maskedSoftmax e (X.map (fun x => dot x (matVec W y))) mask

/-- A run of the (externally provided) nn.GRU over an input sequence
from an initial hidden state, returning the final hidden state; the
cell itself is a parameter. -/
def gruRun (cell : Vec → Vec → Vec) (xs : List Vec) (h0 : Vec) : Vec :=
  xs.foldl (fun h x => cell x h) h0

/-
The reader model.  Configuration fields mirror `drqa/reader/config.py`
and the `args` attributes read by `fusionnet_reader.py`.
-/

/-- The configuration namespace fields used by the FusionNet reader. -/
structure Args where
  vocab_size : Nat
  embedding_dim : Nat
  hidden_size : Nat
  doc_layers : Nat
  question_layers : Nat
  concat_rnn_layers : Bool
  use_qemb : Bool
  use_cove : Bool
  cove_embedding_dim : Nat
  attention_size : Nat
  num_features : Nat
  dropout_emb : ℚ
  rnn_padding : Bool

/-- The learned / external parameter functions of the reader.  Recurrent
encoders, the CoVe encoder, the SeqAttnMatch question-embedding matcher
and the GRU cell are abstract sequence functions (their internals are
external library code); the attention projections and bilinear forms
are explicit matrices. -/
structure Weights where
  embedW : Nat → Vec
  coveFn : List Vec → Nat → List Vec
  qembMatch : List Vec → List Vec → List Bool → List Vec
  rnnLowDoc : List Vec → List Bool → List Vec
  rnnLowQ : List Vec → List Bool → List Vec
  rnnHighDoc : List Vec → List Bool → List Vec
  rnnHighQ : List Vec → List Bool → List Vec
  rnnUndQ : List Vec → List Bool → List Vec
  rnnMulti : List Vec → List Bool → List Vec
  rnnUndDoc : List Vec → List Bool → List Vec
  lowW : List Vec
  highW : List Vec
  undW : List Vec
  selfW : List Vec
  qSelfW : Vec
  startW : List Vec
  endW : List Vec
  gruCell : Vec → Vec → Vec
  expF : ℚ → ℚ
  logF : ℚ → ℚ
  dropF : Vec → Vec

/-- The constructed reader: the embedding table after
`nn.Embedding(vocab_size, embedding_dim, padding_idx=0)` zeroed its
padding row, and the `cove_encoder` attribute, present exactly when
`__init__` created it (`use_cove` and `embedding_dim == 300`,
fusionnet_reader.py lines 30–34). -/
structure Reader where
  args : Args
  w : Weights
  embedding : Nat → Vec
  cove_encoder : Option (List Vec → Nat → List Vec)

/-- `nn.Embedding` with `padding_idx=0`: the framework zero-fills the
padding row at initialisation; lookups read the table. -/
def mkEmbedding (dim : Nat) (w : Nat → Vec) : Nat → Vec :=
  fun i => if i = 0 then List.replicate dim 0 else w i

/-- `FusionNetReader.__init__` as far as the embedded claims need it. -/
def mkReader (a : Args) (w : Weights) : Reader :=
  { args := a
    w := w
    embedding := mkEmbedding a.embedding_dim w.embedW
    cove_encoder :=
      if a.use_cove ∧ a.embedding_dim = 300 then some w.coveFn else none }

/-- Inputs of one forward call (a single batch item). -/
structure Inp where
  x1 : List Nat
  x1_f : List Vec
  x1_mask : List Bool
  x2 : List Nat
  x2_mask : List Bool

/-- Embedding lookup over a sequence of token ids. -/
def embedSeq (E : Nat → Vec) (ids : List Nat) : List Vec := ids.map E

/-- `mask.eq(0).sum()`: number of non-padding positions. -/
def seqLength (mask : List Bool) : Nat := (mask.filter (fun m => !m)).length

/-- The question-side history vector exactly as `forward` builds it
(fusionnet_reader.py lines 229–230): the per-token concatenation
`[x2_word_emb, x2_cove_emb, low_level_question_hiddens,
low_level_question_hiddens]` — note the low-level hidden states appear
twice. -/
def questionHistory (x2_word_emb x2_cove_emb low_q : List Vec) : List Vec :=
  concatSeqs [x2_word_emb, x2_cove_emb, low_q, low_q]

/-- The question-side history vector as the spec describes it: raw word
embedding, contextual embedding, low-level hidden state, high-level
hidden state, in that order. -/
def questionHistorySpec (x2_word_emb x2_cove_emb low_q high_q : List Vec) :
    List Vec :=
  concatSeqs [x2_word_emb, x2_cove_emb, low_q, high_q]

/-- The document-side history vector (fusionnet_reader.py lines
226–227). -/
def docHistory (x1_word_emb x1_cove_emb low_d high_d : List Vec) : List Vec :=
  concatSeqs [x1_word_emb, x1_cove_emb, low_d, high_d]

/-- The span decoder, pre-log-conversion (fusionnet_reader.py lines
287–305), written line by line after the code: question self-attention
pooling, start bilinear attention, weighted-average document vector,
one-element nn.GRU run seeded with the pooled question vector, end
bilinear attention against the resulting memory. -/
def decodeCore (w : Weights) (und_d und_q : List Vec)
    (x1_mask x2_mask : List Bool) : List ℚ × List ℚ :=
  let q_merge_weights := linearSeqAttn w.expF w.qSelfW und_q x2_mask
  let question_hidden := weightedSum q_merge_weights und_q
  let start_scores := bilinearSeqAttn w.expF w.startW und_d question_hidden x1_mask
  let gru_input := weightedSum start_scores und_d
  let memory_hidden := gruRun w.gruCell [gru_input] question_hidden
  let end_scores := bilinearSeqAttn w.expF w.endW und_d memory_hidden x1_mask
  (start_scores, end_scores)

/-- The span decoder as §4.6 of the spec words it: start stage, memory
update by a single recurrent-cell step whose input is the
start-score-weighted average document vector and whose initial hidden
state is the pooled question vector, end stage conditioned on that
memory. -/
def spanDecoderSpec (w : Weights) (und_d und_q : List Vec)
    (x1_mask x2_mask : List Bool) : List ℚ × List ℚ :=
  let pooled_q := weightedSum (linearSeqAttn w.expF w.qSelfW und_q x2_mask) und_q
  let start_scores := bilinearSeqAttn w.expF w.startW und_d pooled_q x1_mask
  let memory := w.gruCell (weightedSum start_scores und_d) pooled_q
  let end_scores := bilinearSeqAttn w.expF w.endW und_d memory x1_mask
  (start_scores, end_scores)

/-- The training-mode conversion of a span distribution
(fusionnet_reader.py lines 307–309): elementwise
`log(p + 1e-8)`; the numeric `log` is the model parameter `logF`. -/
def logConvert (logF : ℚ → ℚ) (p : List ℚ) : List ℚ :=
  p.map (fun q => logF (q + 1 / 100000000))

/-- `FusionNetReader.forward` (fusionnet_reader.py lines 173–310) for a
single batch item.  Python attribute access on the conditionally
created `cove_encoder` is modelled by the `Option` field: `forward`
reads it unconditionally (lines 188–189), so a missing encoder is an
`AttributeError`. -/
def fusionForward (r : Reader) (training : Bool) (inp : Inp) :
    Except String (List ℚ × List ℚ) := do
  let x1_word_emb := embedSeq r.embedding inp.x1
  let x2_word_emb := embedSeq r.embedding inp.x2
  let x1_lengths := seqLength inp.x1_mask
  let x2_lengths := seqLength inp.x2_mask
  let cove ← match r.cove_encoder with
    | some f => pure f
    | none => Except.error "AttributeError: FusionNetReader has no attribute cove_encoder"
  let x1_cove_emb := cove x1_word_emb x1_lengths
  let x2_cove_emb := cove x2_word_emb x2_lengths
  let x1_emb := zipCat x1_word_emb x1_cove_emb
  let x2_emb := zipCat x2_word_emb x2_cove_emb
  let x1_emb := if 0 < r.args.dropout_emb ∧ training then x1_emb.map r.w.dropF else x1_emb
  let x2_emb := if 0 < r.args.dropout_emb ∧ training then x2_emb.map r.w.dropF else x2_emb
  let drnn_input := [x1_emb]
    ++ (if r.args.use_qemb then [r.w.qembMatch x1_word_emb x2_word_emb inp.x2_mask] else [])
    ++ (if 0 < r.args.num_features then [inp.x1_f] else [])
  let low_d := r.w.rnnLowDoc (concatSeqs drnn_input) inp.x1_mask
  let low_q := r.w.rnnLowQ x2_emb inp.x2_mask
  let high_d := r.w.rnnHighDoc low_d inp.x1_mask
  let high_q := r.w.rnnHighQ low_q inp.x2_mask
  let und_q := r.w.rnnUndQ (zipCat low_q high_q) inp.x2_mask
  let hist_d := docHistory x1_word_emb x1_cove_emb low_d high_d
  let hist_q := questionHistory x2_word_emb x2_cove_emb low_q
  let low_vecs := symBilinearAttnMatch r.w.expF r.w.lowW hist_d hist_q inp.x2_mask low_q
  let high_vecs := symBilinearAttnMatch r.w.expF r.w.highW hist_d hist_q inp.x2_mask high_q
  let und_vecs := symBilinearAttnMatch r.w.expF r.w.undW hist_d hist_q inp.x2_mask und_q
  let fa_multi := r.w.rnnMulti
    (concatSeqs [low_d, high_d, low_vecs, high_vecs, und_vecs]) inp.x1_mask
  let hist_d2 := concatSeqs [x1_word_emb, x1_cove_emb, low_d, high_d,
    low_vecs, high_vecs, und_vecs, fa_multi]
  let self_vecs := symBilinearAttnMatch r.w.expF r.w.selfW hist_d2 hist_d2 inp.x1_mask fa_multi
  let und_d := r.w.rnnUndDoc (zipCat fa_multi self_vecs) inp.x1_mask
  let scores := decodeCore r.w und_d und_q inp.x1_mask inp.x2_mask
  if training then
    return (logConvert r.w.logF scores.1, logConvert r.w.logF scores.2)
  else
    return scores

/-
Size bookkeeping of `FusionNetReader.__init__` (fusionnet_reader.py
lines 39–47, 98, 136, 157–171).  The recurrent encoders are all built
with `num_layers=1` and without a concat-layers flag; the spec's §4.1
contract gives the output width per StackedBRNN instance.
-/

/-- Modelled from the spec (§4.1): output width of a `StackedBRNN` —
`2*hidden_size` per layer (bidirectional), `2*hidden_size*num_layers`
when concatenating the stacked layers' outputs. -/
def stackedBRNNOutputSize (hidden num_layers : Nat) (concat : Bool) : Nat :=
  if concat then 2 * hidden * num_layers else 2 * hidden

/-- RNN input width for the document (lines 40–46). -/
def doc_input_size (a : Args) : Nat :=
  a.embedding_dim + a.num_features
    + (if a.use_cove then 2 * a.cove_embedding_dim else 0)
    + (if a.use_qemb then a.embedding_dim else 0)

/-- History-vector width (line 98); note the CoVe share is added
unconditionally. -/
def history_of_word_size (a : Args) : Nat :=
  a.embedding_dim + 2 * a.cove_embedding_dim + 4 * a.hidden_size

/-- Expanded document history width (line 136). -/
def history_of_doc_word_size (a : Args) : Nat :=
  history_of_word_size a + 4 * 2 * a.hidden_size

/-- The decoder's expected document hidden width (lines 157–161). -/
def doc_hidden_size (a : Args) : Nat :=
  if a.concat_rnn_layers then 2 * a.hidden_size * a.doc_layers
  else 2 * a.hidden_size

/-- The decoder's expected question hidden width (lines 159–162). -/
def question_hidden_size (a : Args) : Nat :=
  if a.concat_rnn_layers then 2 * a.hidden_size * a.question_layers
  else 2 * a.hidden_size

/-- Actual output width of `understanding_doc_rnn` (lines 150–155): a
one-layer StackedBRNN, so `2*hidden_size` whatever the concat
setting. -/
def understanding_doc_rnn_size (a : Args) : Nat :=
  stackedBRNNOutputSize a.hidden_size 1 false

/-- Actual output width of `understanding_question_rnn` (lines
88–95). -/
def understanding_question_rnn_size (a : Args) : Nat :=
  stackedBRNNOutputSize a.hidden_size 1 false

/-- The default configuration of `config.py` (embedding_dim 300,
hidden_size 128, doc_layers 3, question_layers 3, concat_rnn_layers
True, use_qemb True, use_cove False, cove_embedding_dim 300,
attention_size 250, dropout_emb 0.4); `num_features` is supplied by the
feature extractor, 4 here. -/
def defaultArgs : Args :=
  { vocab_size := 100000
    embedding_dim := 300
    hidden_size := 128
    doc_layers := 3
    question_layers := 3
    concat_rnn_layers := true
    use_qemb := true
    use_cove := false
    cove_embedding_dim := 300
    attention_size := 250
    num_features := 4
    dropout_emb := 2 / 5
    rnn_padding := false }

/-
`drqa/reader/config.py`.
-/

/-- The `MODEL_OPTIMIZER` key set (config.py lines 31–36). -/
def MODEL_OPTIMIZER : List String :=
  ["fix_embeddings", "optimizer", "learning_rate", "momentum",
   "weight_decay", "rnn_padding", "dropout_rnn", "dropout_rnn_output",
   "dropout_emb", "max_len", "grad_clipping", "tune_partial",
   "learning_rate_scheduler", "learning_rate_patience",
   "learning_rate_factor"]

/-- `config.override_model_args` (config.py lines 150–168).  Namespaces
are modelled as partial maps from key to value; the loop walks the
saved keys and replaces a value by the new one exactly when both
namespaces bind the key, the values differ and the key is in
`MODEL_OPTIMIZER`. -/
def override_model_args {V : Type} [DecidableEq V]
    (old_args new_args : String → Option V) : String → Option V :=
  fun k =>
    match old_args k with
    | none => none
    | some ov =>
      match new_args k with
      | none => some ov
      | some nv =>
        if ov ≠ nv ∧ k ∈ MODEL_OPTIMIZER then some nv else some ov

/-
`drqa/module/similarity_functions/cosine.py`.
-/

/-- `tensor.norm(dim=-1)`: the 2-norm of the last dimension; the square
root is the model parameter `sqrtF`. -/
def l2norm (sqrtF : ℚ → ℚ) (v : Vec) : ℚ :=
  sqrtF ((v.map (fun x => x * x)).sum)

/-- `tensor / tensor.norm(dim=-1, keepdim=True)`. -/
def normalize (sqrtF : ℚ → ℚ) (t : Vec) : Vec :=
  t.map (fun x => x / l2norm sqrtF t)

/-- `CosineSimilarity.forward` (cosine.py lines 11–14): normalise both
inputs by their own last-dimension norms, multiply elementwise, sum
over the last dimension. -/
def cosineForward (sqrtF : ℚ → ℚ) (t1 t2 : Vec) : ℚ :=
  (List.zipWith (· * ·) (normalize sqrtF t1) (normalize sqrtF t2)).sum

/-
Concrete instances used to instantiate the general theorems.
-/

/-- A concrete trivial weight assignment. -/
def constWeights : Weights :=
  { embedW := fun _ => [1]
    coveFn := fun xs _ => xs
    qembMatch := fun xs _ _ => xs
    rnnLowDoc := fun xs _ => xs
    rnnLowQ := fun xs _ => xs
    rnnHighDoc := fun xs _ => xs
    rnnHighQ := fun xs _ => xs
    rnnUndQ := fun xs _ => xs
    rnnMulti := fun xs _ => xs
    rnnUndDoc := fun xs _ => xs
    lowW := [[1]]
    highW := [[1]]
    undW := [[1]]
    selfW := [[1]]
    qSelfW := [1]
    startW := [[1]]
    endW := [[1]]
    gruCell := fun x h => vadd x h
    expF := fun _ => 1
    logF := fun x => x
    dropF := fun v => v }

/-- A concrete small input: a two-token document whose second position
is padding, a one-token question. -/
def constInp : Inp :=
  { x1 := [1, 2]
    x1_f := [[1], [1]]
    x1_mask := [false, true]
    x2 := [1]
    x2_mask := [false] }

/-- The default configuration with CoVe switched on. -/
def coveArgs : Args := { defaultArgs with use_cove := true }

/-
The claims.
-/

/-- C1: the claim says the question-side history vector is the
per-token concatenation of raw word embedding, contextual embedding,
low-level hidden state and high-level hidden state.  The code
(fusionnet_reader.py lines 229–230) instead concatenates the low-level
question hidden states twice and omits the high-level ones: at a
question token with word embedding `[1]`, CoVe embedding `[2]`,
low-level state `[3]` and high-level state `[4]`, the history the code
feeds to all three cross-attention levels is `[1, 2, 3, 3]`, not the
`[1, 2, 3, 4]` the claim describes. -/
theorem C1_question_history_duplicates_low_level :
    questionHistory [[1]] [[2]] [[3]] = [[1, 2, 3, 3]] ∧
    questionHistorySpec [[1]] [[2]] [[3]] [[4]] = [[1, 2, 3, 4]] ∧
    questionHistory [[1]] [[2]] [[3]] ≠
      questionHistorySpec [[1]] [[2]] [[3]] [[4]] := by
  refine ⟨rfl, rfl, ?_⟩
  decide

/-- C2: every row of every attention weight matrix produced by the
cross-attention and self-boosted attention layers sums to exactly 1
over its key positions (hence sums to 1 over the non-padding ones) and
assigns weight exactly 0 to every padding key position regardless of
its raw score, for every positive exponential function and every key
mask with at least one non-padding position. -/
theorem C2_attention_rows_stochastic (e : ℚ → ℚ) (W : List Vec)
    (A B : List Vec) (mask : List Bool)
    (hpos : ∀ x, 0 < e x) (hlen : B.length = mask.length)
    (hvalid : false ∈ mask) :
    ∀ row ∈ attnMatrix e W A B mask,
      row.sum = 1 ∧
      ∀ i, (hi : i < mask.length) → mask.get ⟨i, hi⟩ = true →
        row.getD i 0 = 0 := by
  intro row hrow
  obtain ⟨a, _, rfl⟩ := List.mem_map.mp hrow
  have hslen : (symScores W a B).length = mask.length := by
    simpa [symScores] using hlen
  constructor
  · exact maskedSoftmax_sum e hpos (symScores W a B) mask hslen hvalid
  · intro i hi hm
    exact maskedSoftmax_pad_zero e (symScores W a B) mask i hi
      (hslen ▸ hi) hm

/-- C2 witness: a concrete attention row with one padding key: its
weights sum to 1 and the padding key gets weight 0. -/
theorem C2_attention_rows_stochastic_witness :
    (attnWeightsRow (fun _ => 1) [[1]] [1] [[1], [2]] [false, true]).sum = 1 ∧
    (attnWeightsRow (fun _ => 1) [[1]] [1] [[1], [2]] [false, true]).getD 1 0 = 0 := by
  have h := C2_attention_rows_stochastic (fun _ => 1) [[1]] [[1]]
    [[1], [2]] [false, true] (fun _ => one_pos) (by decide) (by decide)
  have hmem : attnWeightsRow (fun _ => 1) [[1]] [1] [[1], [2]] [false, true] ∈
      attnMatrix (fun _ => 1) [[1]] [[1]] [[1], [2]] [false, true] := by
    simp [attnMatrix]
  obtain ⟨h1, h2⟩ := h _ hmem
  exact ⟨h1, h2 1 (by decide) (by decide)⟩

/-- C3: the claim says that with contextual (CoVe) embeddings disabled,
forward completes without invoking the contextual encoder.  The code
contradicts it: forward reads `self.cove_encoder` unconditionally
(lines 188–189) while `__init__` creates the attribute only when
`use_cove` and `embedding_dim == 300` (lines 30–34), so every forward
pass of a reader configured with `use_cove = False` raises
AttributeError instead of completing. -/
theorem C3_forward_fails_without_cove (a : Args) (w : Weights)
    (inp : Inp) (training : Bool) (hc : a.use_cove = false) :
    fusionForward (mkReader a w) training inp =
      Except.error "AttributeError: FusionNetReader has no attribute cove_encoder" := by
  have hnone : (mkReader a w).cove_encoder = none := by
    simp [mkReader, hc]
  unfold fusionForward
  rw [hnone]
  rfl

/-- C3 witness: the default configuration has `use_cove = False` and a
concrete forward pass on it errors out. -/
theorem C3_forward_fails_without_cove_witness :
    fusionForward (mkReader defaultArgs constWeights) false constInp =
      Except.error "AttributeError: FusionNetReader has no attribute cove_encoder" :=
  C3_forward_fails_without_cove defaultArgs constWeights constInp false rfl

/-- C4: the claim says the decoder's expected document hidden width
equals the final document encoder's actual output width for every
recognized configuration.  Under the default configuration
(hidden_size=128, doc_layers=question_layers=3, concat_rnn_layers
=True) the decoder bilinear layers are sized for
`2*hidden_size*doc_layers = 768` (lines 157–171) while
`understanding_doc_rnn` (and `understanding_question_rnn`) are
one-layer BRNNs outputting `2*hidden_size = 256`, so forward raises a
dimension mismatch. -/
theorem C4_decoder_size_mismatch :
    doc_hidden_size defaultArgs = 768 ∧
    understanding_doc_rnn_size defaultArgs = 256 ∧
    doc_hidden_size defaultArgs ≠ understanding_doc_rnn_size defaultArgs ∧
    question_hidden_size defaultArgs = 768 ∧
    understanding_question_rnn_size defaultArgs = 256 := by
  refine ⟨rfl, rfl, ?_, rfl, rfl⟩
  decide

/-- C5: the span decoder follows the claimed two-stage state machine:
the code's decoder (lines 287–305) equals, for all weights and inputs,
the spec's description — the memory vector is one GRU-cell step whose
input is the start-score-weighted average of the fused document hidden
states and whose initial hidden state is the pooled question vector,
and the end scores are the document-padding-masked softmax of the
bilinear score against that memory, so the end distribution depends on
the start distribution. -/
theorem C5_decoder_state_machine (w : Weights) (und_d und_q : List Vec)
    (x1_mask x2_mask : List Bool) :
    decodeCore w und_d und_q x1_mask x2_mask =
      spanDecoderSpec w und_d und_q x1_mask x2_mask := rfl

/-- C6: training vs inference affects only the final conversion of the
span distributions: with a no-op dropout realisation, a training-mode
forward pass returns exactly the elementwise `log(p + 1e-8)` image of
the inference-mode outputs, all preceding attention and encoding
computations being the same in both modes. -/
theorem C6_training_only_log_conversion (r : Reader) (inp : Inp)
    (hdrop : r.w.dropF = fun v => v) :
    fusionForward r true inp =
      (fusionForward r false inp).map
        (fun p => (logConvert r.w.logF p.1, logConvert r.w.logF p.2)) := by
  unfold fusionForward
  cases hcove : r.cove_encoder with
  | none => rfl
  | some f =>
    simp only [hdrop, List.map_id', ite_self]
    rfl

/-- C6 witness: a concrete CoVe-enabled reader run on the concrete
input in the two modes. -/
theorem C6_training_only_log_conversion_witness :
    fusionForward (mkReader coveArgs constWeights) true constInp =
      (fusionForward (mkReader coveArgs constWeights) false constInp).map
        (fun p => (logConvert (mkReader coveArgs constWeights).w.logF p.1,
          logConvert (mkReader coveArgs constWeights).w.logF p.2)) :=
  C6_training_only_log_conversion (mkReader coveArgs constWeights) constInp rfl

/-- C7: document-side padding is masked only in the decoder: the
cross-attention layer takes no document mask, so a document position
that is padding (position 1 of the concrete document mask
`[false, true]`) still receives the nonzero cross-attention output
`[5]`, while both decoder distributions assign probability exactly 0 to
every document-padded position. -/
theorem C7_doc_padding_masked_only_in_decoder (w : Weights)
    (und_d und_q : List Vec) (x1_mask x2_mask : List Bool)
    (i : Nat) (hi : i < x1_mask.length) (hid : i < und_d.length)
    (hm : x1_mask.get ⟨i, hi⟩ = true) :
    (symBilinearAttnMatch (fun _ => 1) [[1]] [[1], [1]] [[2]] [false] [[5]]).getD 1 [] = [5] ∧
    (decodeCore w und_d und_q x1_mask x2_mask).1.getD i 0 = 0 ∧
    (decodeCore w und_d und_q x1_mask x2_mask).2.getD i 0 = 0 := by
  refine ⟨?_, ?_, ?_⟩
  · norm_num [symBilinearAttnMatch, attnMatrix, attnWeightsRow, maskedSoftmax,
      symScores, dot, matVec, reluVec, weightedSum, smul, vadd]
  · exact maskedSoftmax_pad_zero w.expF
      (und_d.map (fun x => dot x (matVec w.startW
        (weightedSum (linearSeqAttn w.expF w.qSelfW und_q x2_mask) und_q))))
      x1_mask i hi (by simpa using hid) hm
  · exact maskedSoftmax_pad_zero w.expF
      (und_d.map (fun x => dot x (matVec w.endW
        (gruRun w.gruCell
          [weightedSum
            (bilinearSeqAttn w.expF w.startW und_d
              (weightedSum (linearSeqAttn w.expF w.qSelfW und_q x2_mask) und_q)
              x1_mask) und_d]
          (weightedSum (linearSeqAttn w.expF w.qSelfW und_q x2_mask) und_q)))))
      x1_mask i hi (by simpa using hid) hm

/-- C7 witness: a concrete decoder run in which the document-padded
position 1 gets probability 0 in both distributions. -/
theorem C7_doc_padding_masked_only_in_decoder_witness :
    (symBilinearAttnMatch (fun _ => 1) [[1]] [[1], [1]] [[2]] [false] [[5]]).getD 1 [] = [5] ∧
    (decodeCore constWeights [[1], [1]] [[1]] [false, true] [false]).1.getD 1 0 = 0 ∧
    (decodeCore constWeights [[1], [1]] [[1]] [false, true] [false]).2.getD 1 0 = 0 :=
  C7_doc_padding_masked_only_in_decoder constWeights [[1], [1]] [[1]]
    [false, true] [false] 1 (by decide) (by decide) (by decide)

/-- C8: token id 0 is the reserved padding index of the word embedding
layer: in the reader `__init__` builds, every sequence position holding
token id 0 embeds to the all-zero vector of width `embedding_dim`, and
the padding row of the table itself is that zero vector (the model
forward is a pure function, so no forward pass updates it). -/
theorem C8_padding_id_embeds_zero (a : Args) (w : Weights)
    (ids : List Nat) (i : Nat) (hi : i < ids.length)
    (h0 : ids.get ⟨i, hi⟩ = 0) :
    (embedSeq (mkReader a w).embedding ids).getD i [] =
      List.replicate a.embedding_dim 0 ∧
    (mkReader a w).embedding 0 = List.replicate a.embedding_dim 0 := by
  have hrow : (mkReader a w).embedding 0 = List.replicate a.embedding_dim 0 := by
    simp [mkReader, mkEmbedding]
  refine ⟨?_, hrow⟩
  unfold embedSeq
  rw [List.getD_eq_getElem?_getD, List.getElem?_map, List.getElem?_eq_getElem hi]
  have hval : ids[i] = 0 := by simpa [List.get_eq_getElem] using h0
  simp [hval, hrow]

/-- C8 witness: a concrete id list holding the padding id at position
0. -/
theorem C8_padding_id_embeds_zero_witness :
    (embedSeq (mkReader defaultArgs constWeights).embedding [0, 5]).getD 0 [] =
      List.replicate defaultArgs.embedding_dim 0 ∧
    (mkReader defaultArgs constWeights).embedding 0 =
      List.replicate defaultArgs.embedding_dim 0 :=
  C8_padding_id_embeds_zero defaultArgs constWeights [0, 5] 0 (by decide) (by decide)

/-- C9: `override_model_args` changes only MODEL_OPTIMIZER keys: every
key bound in the saved namespace and outside MODEL_OPTIMIZER keeps its
saved value in the returned namespace, whatever the new namespace
assigns it. -/
theorem C9_override_keeps_non_optimizer_keys {V : Type} [DecidableEq V]
    (old_args new_args : String → Option V) (k : String) (v : V)
    (hk : k ∉ MODEL_OPTIMIZER) (hv : old_args k = some v) :
    override_model_args old_args new_args k = some v := by
  unfold override_model_args
  rw [hv]
  cases hnew : new_args k with
  | none => rfl
  | some nv =>
    have hcond : ¬ (v ≠ nv ∧ k ∈ MODEL_OPTIMIZER) := fun h => hk h.2
    simp [hcond]

/-- C9 witness: `hidden_size` is an architecture key; its saved value 1
survives a new namespace binding it to 2. -/
theorem C9_override_keeps_non_optimizer_keys_witness :
    override_model_args
      (fun k => if k = "hidden_size" then some (1 : Nat) else none)
      (fun k => if k = "hidden_size" then some 2 else none)
      "hidden_size" = some 1 :=
  C9_override_keeps_non_optimizer_keys
    (fun k => if k = "hidden_size" then some (1 : Nat) else none)
    (fun k => if k = "hidden_size" then some 2 else none)
    "hidden_size" 1 (by decide) (by decide)

/-- C10: `CosineSimilarity.forward` is symmetric: for every pair of
equal-length vectors with nonzero last-dimension norms (and any square
root realisation), swapping the arguments leaves the result
unchanged. -/
theorem C10_cosine_symmetric (sqrtF : ℚ → ℚ) (t1 t2 : Vec)
    (_hlen : t1.length = t2.length)
    (_h1 : l2norm sqrtF t1 ≠ 0) (_h2 : l2norm sqrtF t2 ≠ 0) :
    cosineForward sqrtF t1 t2 = cosineForward sqrtF t2 t1 := by
  unfold cosineForward
  rw [List.zipWith_comm_of_comm (· * ·) mul_comm]

/-- C10 witness: concrete one-dimensional tensors with identity square
root. -/
theorem C10_cosine_symmetric_witness :
    cosineForward (fun x => x) [1] [2] = cosineForward (fun x => x) [2] [1] :=
  C10_cosine_symmetric (fun x => x) [1] [2] rfl (by norm_num [l2norm])
    (by norm_num [l2norm])

end FusionNet
